import Mathlib

/-!
Verification of the better-file-color plugin's rule-evaluation and
color-resolution engine, shallowly embedded from the TypeScript source
(src/plugin/FileColorPlugin.ts and src/modules/SettingsPanel/index.tsx).
JavaScript strings are modelled through their character lists; string
helpers below mirror the exact JS string operations used by the source.
-/

namespace FileColor

/-! ## String helpers (JS string operations over character lists) -/

/-- JS `String.prototype.startsWith` on character lists: first argument is the
haystack, second the sought leading segment. -/
def startsWithChars : List Char → List Char → Bool
  | _, [] => true
  | [], _ :: _ => false
  | a :: as, b :: bs => a == b && startsWithChars as bs

/-- JS `s.startsWith(t)`. -/
def strStarts (s t : String) : Bool := startsWithChars s.data t.data

/-- Does the character-list `s` occur contiguously inside `t`
(JS `t.includes(s)` has haystack first; see `strIncludes`). -/
def hasSubChars : List Char → List Char → Bool
  | [], s => s.isEmpty
  | a :: t, s => startsWithChars (a :: t) s || hasSubChars t s

/-- JS `s.includes(sub)`: substring containment. -/
def strIncludes (s sub : String) : Bool := hasSubChars s.data sub.data

/-- Whitespace characters removed by JS `trim` (ASCII portion). -/
def isWs (c : Char) : Bool := c == ' ' || c == '\t' || c == '\n' || c == '\r'

/-- JS `s.trim()`. -/
def strTrim (s : String) : String :=
  ⟨((s.data.dropWhile isWs).reverse.dropWhile isWs).reverse⟩

/-- JS `s.toUpperCase()` on one character (ASCII letters; the source applies
it only to hex-digit strings and color names). -/
def upChar (c : Char) : Char :=
  if 'a' ≤ c ∧ c ≤ 'z' then Char.ofNat (c.toNat - 32) else c

/-- JS `s.toLowerCase()` on one character (ASCII letters). -/
def lowChar (c : Char) : Char :=
  if 'A' ≤ c ∧ c ≤ 'Z' then Char.ofNat (c.toNat + 32) else c

/-- JS `s.toUpperCase()` (ASCII). -/
def strUpper (s : String) : String := ⟨s.data.map upChar⟩

/-- JS `s.toLowerCase()` (ASCII). -/
def strLower (s : String) : String := ⟨s.data.map lowChar⟩

/-- A hexadecimal digit, as in the source's regex class `[0-9A-Fa-f]`. -/
def isHexDigit (c : Char) : Bool :=
  ('0' ≤ c && c ≤ '9') || ('a' ≤ c && c ≤ 'f') || ('A' ≤ c && c ≤ 'F')

/-- Drop one leading `'#'` if present (JS `hex.substring(1)` after a
`startsWith('#')` test). -/
def stripHash (s : String) : String :=
  if strStarts s "#" then ⟨s.data.drop 1⟩ else s

/-- JS `path.substring(path.lastIndexOf('/') + 1)`: the segment after the
last slash (the whole string when no slash occurs). -/
def fileNameOf (path : String) : String :=
  ⟨path.data.foldl (fun acc c => if c == '/' then [] else acc ++ [c]) []⟩

/-! ## Data model (`settings.ts`) -/

/-- One condition of a group (`groups[].conditions[]` in `settings.ts`).
The `type` and `propertyOperator` fields are the source's string tags. -/
structure Condition where
  id : String
  type : String
  pattern : String
  matchFullPath : Bool
  propertyName : String
  propertyValue : String
  propertyOperator : String
deriving Repr, DecidableEq

/-- A color group (`groups[]` in `settings.ts`). -/
structure Group where
  id : String
  name : String
  colorId : String
  usePropertyAsColor : Bool
  propertyNameForColor : String
  enabled : Bool
  priority : Int
  conditions : List Condition
deriving Repr, DecidableEq

/-- A palette entry (`palette[]` in `settings.ts`). -/
structure PaletteColor where
  id : String
  name : String
  value : String
deriving Repr, DecidableEq

/-- A manual per-file color (`fileColors[]` in `settings.ts`; the spec calls
it `ManualFileColor`). -/
structure ManualFileColor where
  path : String
  color : String
deriving Repr, DecidableEq

/-- The persisted settings blob (`FileColorPluginSettings`). -/
structure Settings where
  cascadeColors : Bool
  colorBackground : Bool
  folderNotesCompatibility : Bool
  palette : List PaletteColor
  fileColors : List ManualFileColor
  groups : List Group
deriving Repr, DecidableEq

/-- A frontmatter property value as the source observes it: the plugin
stringifies values with JS `String(...)` and tests truthiness, so we keep
strings, integers, booleans and arrays of (stringified) elements. -/
inductive PropValue where
  | str (s : String)
  | num (n : Int)
  | boolean (b : Bool)
  | arr (xs : List String)
deriving Repr, DecidableEq

/-- Parsed frontmatter of one file: a key/value mapping. -/
def Frontmatter := List (String × PropValue)

/-- JS object property lookup `frontmatter[name]` (keys are unique). -/
def lookupFm (fm : Frontmatter) (k : String) : Option PropValue :=
  (fm.find? (fun e => e.1 == k)).map (fun e => e.2)

/-- JS `String(v)` on a frontmatter value (arrays join with commas). -/
def propToStr : PropValue → String
  | .str s => s
  | .num n => toString n
  | .boolean b => if b then "true" else "false"
  | .arr xs => String.intercalate "," xs

/-- JS truthiness of a frontmatter value. -/
def propTruthy : PropValue → Bool
  | .str s => s != ""
  | .num n => n != 0
  | .boolean b => b
  | .arr _ => true

/-- JS truthiness of the mutable `colorValue : string | undefined` variable of
`applyColorStylesInternal` (`undefined` and the empty string are falsy). -/
def truthyS : Option String → Bool
  | none => false
  | some s => s != ""

/-- The host capabilities the resolver consumes: a regex engine
(`new RegExp(pattern)` either throws — `none` — or yields a `test` function)
and the vault's metadata: `env path` is the parsed frontmatter of `path`,
`none` when the file is missing, not a markdown file, or has no
frontmatter (the source checks exactly these before reading properties). -/
def RegexEngine := String → Option (String → Bool)

def MetaEnv := String → Option Frontmatter

/-! ## Condition evaluator (`FileColorPlugin.evaluateCondition`) -/

/-- Embeds `evaluateCondition(path, condition)`. The regex branch builds the
target from the full path or the part after the last `/`; a pattern that does
not compile evaluates to `false`. The property branch returns `false` when the
file has no (markdown) frontmatter or the property is absent, and otherwise
applies the operator exactly as the source's `switch`. -/
def evaluateCondition (engine : RegexEngine) (env : MetaEnv)
    (path : String) (c : Condition) : Bool :=
  if c.type == "regex" then
    match engine c.pattern with
    | none => false
    | some test =>
      let targetString := if c.matchFullPath then path else fileNameOf path
      test targetString
  else if c.type == "property" then
    match env path with
    | none => false
    | some frontmatter =>
      match lookupFm frontmatter c.propertyName with
      | none => false
      | some propValue =>
        if c.propertyOperator == "exists" then true
        else if c.propertyOperator == "equals" then
          propToStr propValue == c.propertyValue
        else if c.propertyOperator == "contains" then
          match propValue with
          | .arr xs => xs.any (fun v => v == c.propertyValue)
          | v => strIncludes (propToStr v) c.propertyValue
        else false
  else false

/-- The group-matching step of `applyColorStylesInternal`: a group with an
empty condition list is skipped (`continue`), otherwise all conditions must
hold (`conditionsResults.every(...)`). -/
def groupMatches (engine : RegexEngine) (env : MetaEnv)
    (path : String) (g : Group) : Bool :=
  !g.conditions.isEmpty && g.conditions.all (fun c => evaluateCondition engine env path c)

/-! ## Hex normalization -/

/-- The source's `/^#?[0-9A-Fa-f]{6}$/` test (optional `#` then six hex
digits) used by the resolver's property-as-color extraction. -/
def hexPatternTest (s : String) : Bool :=
  (stripHash s).data.length == 6 && (stripHash s).data.all isHexDigit

/-- The resolver's per-value hex handling in `applyColorStylesInternal`:
`String(frontmatter[...]).trim()` is tested against the 6-digit pattern and,
when it passes, prefixed with `#` unless already present. -/
def resolverHexNormalize (raw : String) : Option String :=
  let colorStr := strTrim raw
  if hexPatternTest colorStr then
    some (if strStarts colorStr "#" then colorStr else "#" ++ colorStr)
  else none

/-- JS `hex.split('').map(c => c + c).join('')`: duplicate every character. -/
def dupEachChar (cs : List Char) : List Char :=
  cs.foldr (fun c acc => c :: c :: acc) []

/-- Embeds `validateAndNormalizeHex` from `SettingsPanel/index.tsx`: trim,
drop an optional leading `#`, then accept exactly six or exactly three hex
digits, producing the uppercased six-digit `#RRGGBB` form. -/
def validateAndNormalizeHex (hexInput : String) : Option String :=
  let hex := strTrim hexInput
  let hex := stripHash hex
  if hex.data.length == 6 && hex.data.all isHexDigit then
    some ("#" ++ strUpper hex)
  else if hex.data.length == 3 && hex.data.all isHexDigit then
    some ("#" ++ strUpper ⟨dupEachChar hex.data⟩)
  else none

/-! ## Priority ordering (JS stable `sort((a, b) => b.priority - a.priority)`) -/

/-- Insert a group into a priority-descending list, after every element of
strictly higher priority and before the first element of lower or equal
priority. -/
def insertDesc (g : Group) : List Group → List Group
  | [] => [g]
  | h :: t => if h.priority > g.priority then h :: insertDesc g t else g :: h :: t

/-- Stable descending-by-priority sort, the behaviour of the source's
`groups.sort((a, b) => b.priority - a.priority)` (ECMAScript sorts are
stable: equal priorities keep their original relative order). -/
def sortByPriorityDesc : List Group → List Group
  | [] => []
  | g :: t => insertDesc g (sortByPriorityDesc t)

/-! ## Color resolver (`applyColorStylesInternal`) -/

/-- The property-as-color extraction for one matching group: the source reads
`frontmatter[group.propertyNameForColor]` (requiring the markdown file, its
frontmatter and the value itself to be truthy) and then normalizes the
stringified value against the 6-digit hex pattern. -/
def propertyHexColor (env : MetaEnv) (path : String) (g : Group) : Option String :=
  match env path with
  | none => none
  | some frontmatter =>
    match lookupFm frontmatter g.propertyNameForColor with
    | none => none
    | some v =>
      if propTruthy v then resolverHexNormalize (propToStr v) else none

/-- One iteration of the resolver's `for (const group of enabledGroups)` body,
threading the mutable pair `(colorValue, isHexColor)`. A group with no
conditions, a non-matching group, and a matching `usePropertyAsColor` group
whose extraction fails all leave the state unchanged; a matching palette group
sets `colorValue` to its `colorId`; a successful extraction sets the hex value
and the `isHexColor` flag. -/
def groupStep (engine : RegexEngine) (env : MetaEnv) (path : String)
    (st : Option String × Bool) (g : Group) : Option String × Bool :=
  if groupMatches engine env path g then
    if g.usePropertyAsColor then
      match propertyHexColor env path g with
      | some c => (some c, true)
      | none => st
    else (some g.colorId, st.2)
  else st

/-- The resolver's group loop: after each matching group's body the source
runs `if (colorValue) break`, so iteration stops at the first truthy
`colorValue` (the loop is only entered with a falsy `colorValue`, so the
skipped-group iterations observe no truthy state either). -/
def groupLoop (engine : RegexEngine) (env : MetaEnv) (path : String)
    (st : Option String × Bool) : List Group → Option String × Bool
  | [] => st
  | g :: rest =>
    let st2 := groupStep engine env path st g
    if truthyS st2.1 then st2 else groupLoop engine env path st2 rest

/-- Runs the resolver state machine for one file: the manual color (if truthy)
wins without entering the group loop, otherwise the enabled groups are
iterated in stable priority-descending order. -/
def resolveFile (engine : RegexEngine) (env : MetaEnv)
    (s : Settings) (path : String) : Option String × Bool :=
  let manualFile := s.fileColors.find? (fun f => f.path == path)
  let colorValue : Option String := manualFile.map (fun f => f.color)
  if truthyS colorValue then (colorValue, false)
  else
    let enabledGroups := sortByPriorityDesc (s.groups.filter (fun g => g.enabled))
    groupLoop engine env path (colorValue, false) enabledGroups

/-- The per-file styling decision the source derives from `(colorValue,
isHexColor)`: a literal hex applied as an inline custom property, or a palette
id applied through the class `file-color-color-<id>`. -/
inductive ResolvedColor where
  | paletteRef (id : String)
  | hexLit (value : String)
deriving Repr, DecidableEq

/-- The final `if (colorValue)` of `applyColorStylesInternal`: a falsy
`colorValue` yields no color; otherwise `isHexColor` decides between the
inline hex and the palette class. -/
def yieldToResolved : Option String × Bool → Option ResolvedColor
  | (none, _) => none
  | (some v, isHex) =>
    if v != "" then some (if isHex then .hexLit v else .paletteRef v) else none

/-- The complete per-file color resolution of `applyColorStylesInternal`. -/
def resolvedColor (engine : RegexEngine) (env : MetaEnv)
    (s : Settings) (path : String) : Option ResolvedColor :=
  yieldToResolved (resolveFile engine env s path)

/-- The actual CSS color a resolution result paints with, composing
`generateColorStyles` (which emits `.file-color-color-<id> \x7b
--file-color-color: <value> \x7d` for every palette entry) with the class or
inline style the resolver applies: a palette reference paints only when the
referenced id exists in the palette. -/
def effectiveCssColor (s : Settings) (r : Option ResolvedColor) : Option String :=
  match r with
  | none => none
  | some (.hexLit v) => some v
  | some (.paletteRef id) =>
    (s.palette.find? (fun c => c.id == id)).map (fun c => c.value)

/-! ## Vault delete handler (`onload`'s `vault.on('delete')` callback) -/

/-- Embeds the delete handler: `fileColors` keeps exactly the entries whose
path does not start with the deleted path. -/
def onVaultDelete (s : Settings) (deletedPath : String) : Settings :=
  { s with fileColors := s.fileColors.filter (fun fc => !(strStarts fc.path deletedPath)) }

/-! ## Settings panel: palette save (`SettingsPanel.onSave`) -/

/-- The save-time hex test `/^#[0-9A-Fa-f]{6}$/` applied to
`color.value.trim()` (unlike the input-field normalizer, the leading `#` is
mandatory here). -/
def saveHexTest (s : String) : Bool :=
  strStarts s "#" && (s.data.drop 1).length == 6 && (s.data.drop 1).all isHexDigit

/-- One entry of the `errors` array `onSave` accumulates. -/
structure PaletteError where
  colorIds : List String
  message : String
  errorType : String
deriving Repr, DecidableEq

/-- Validation 1 of `onSave`: one `invalid-hex` error per palette color whose
trimmed value fails the save-time hex pattern, in palette order. -/
def invalidHexErrors (palette : List PaletteColor) : List PaletteError :=
  palette.filterMap (fun color =>
    let hex := strTrim color.value
    if saveHexTest hex then none
    else some ⟨[color.id], "Invalid hex color: " ++ hex, "invalid-hex"⟩)

/-- The name key `onSave` groups by: `color.name.trim().toLowerCase()`. -/
def normName (c : PaletteColor) : String := strLower (strTrim c.name)

/-- The keys of the JS `nameToColors` object in insertion order: the distinct
non-empty normalized names, each at its first occurrence. -/
def nameKeys (seen : List String) : List PaletteColor → List String
  | [] => []
  | c :: rest =>
    let n := normName c
    if n == "" ∨ n ∈ seen then nameKeys seen rest
    else n :: nameKeys (n :: seen) rest

/-- Validation 2 of `onSave`: one `duplicate-name` error per normalized name
shared by two or more colors, carrying the ids of every color involved. -/
def dupNameErrors (palette : List PaletteColor) : List PaletteError :=
  (nameKeys [] palette).filterMap (fun n =>
    let colors := palette.filter (fun c => normName c == n)
    if colors.length > 1 then
      some ⟨colors.map (fun c => c.id),
            "Duplicate color name " ++ ((colors.head?.map (fun c => strTrim c.name)).getD ""),
            "duplicate-name"⟩
    else none)

/-- All errors `onSave` collects before deciding whether to commit. -/
def onSaveErrors (palette : List PaletteColor) : List PaletteError :=
  invalidHexErrors palette ++ dupNameErrors palette

/-- Embeds `onSave`: with any error the save is rejected and the settings are
untouched; otherwise the palette is committed and `fileColors` is filtered to
the entries whose color id still exists in the new palette (groups are not
touched). Returns the reported errors together with the resulting settings. -/
def onSavePalette (s : Settings) (palette : List PaletteColor) :
    List PaletteError × Settings :=
  let errors := onSaveErrors palette
  if errors.length > 0 then (errors, s)
  else ([], { s with
    palette := palette,
    fileColors := s.fileColors.filter
      (fun fc => (palette.find? (fun color => fc.color == color.id)).isSome) })

/-! ## Settings panel: group reordering (`onGroupMoveUp` / `onGroupMoveDown`) -/

/-- Embeds `onGroupMoveUp`: in the priority-descending view, the moved group's
priority becomes its upper neighbour's priority plus one and the neighbour
receives the moved group's old priority; with the group already first (or the
id absent, where `findIndex` yields `-1`) nothing changes. -/
def onGroupMoveUp (groups : List Group) (groupId : String) : List Group :=
  let sorted := sortByPriorityDesc groups
  match sorted.findIdx? (fun g => g.id == groupId) with
  | none => groups
  | some index =>
    if index > 0 then
      match sorted[index]?, sorted[index - 1]? with
      | some cur, some neighbor =>
        groups.map (fun g =>
          if g.id == groupId then { g with priority := neighbor.priority + 1 }
          else if g.id == neighbor.id then { g with priority := cur.priority }
          else g)
      | _, _ => groups
    else groups

/-- Embeds `onGroupMoveDown`: symmetric to `onGroupMoveUp`, the moved group's
priority becomes its lower neighbour's priority minus one; with the group
already last nothing changes. (With an id absent from a non-empty list the
source would fault on `sortedGroups[-1]`; that path is outside every claim and
is modelled as a no-op.) -/
def onGroupMoveDown (groups : List Group) (groupId : String) : List Group :=
  let sorted := sortByPriorityDesc groups
  match sorted.findIdx? (fun g => g.id == groupId) with
  | none => groups
  | some index =>
    if index < sorted.length - 1 then
      match sorted[index]?, sorted[index + 1]? with
      | some cur, some neighbor =>
        groups.map (fun g =>
          if g.id == groupId then { g with priority := neighbor.priority - 1 }
          else if g.id == neighbor.id then { g with priority := cur.priority }
          else g)
      | _, _ => groups
    else groups

/-! ## Derived descriptions used by the theorems -/

/-- What one group alone would contribute, starting from a clean resolver
state. -/
def groupYield (engine : RegexEngine) (env : MetaEnv) (path : String)
    (g : Group) : Option String × Bool :=
  groupStep engine env path (none, false) g

/-- The first truthy per-group yield along a list — the declarative reading of
the resolver's group loop. -/
def firstYield (engine : RegexEngine) (env : MetaEnv) (path : String) :
    List Group → Option String × Bool
  | [] => (none, false)
  | g :: rest =>
    let y := groupYield engine env path g
    if truthyS y.1 then y else firstYield engine env path rest

/-- An uppercase hexadecimal digit (`[0-9A-F]`). -/
def isUpperHexDigit (c : Char) : Bool := ('0' ≤ c && c ≤ '9') || ('A' ≤ c && c ≤ 'F')

/-- Recognizes the spec's output shape for palette normalization: a literal
`#` followed by exactly six uppercase hex digits. -/
def isUpperHexColor6 (r : String) : Bool :=
  match r.data with
  | '#' :: rest => rest.length == 6 && rest.all isUpperHexDigit
  | _ => false

/-! ## Concrete instances used by counterexamples and witnesses -/

/-- A regex engine for concrete instances; the instances use only property
conditions, so it is never consulted. -/
def noEngine : RegexEngine := fun _ => none

/-- A property condition requiring the frontmatter key `k` to exist. -/
def existsCond (i k : String) : Condition :=
  { id := i, type := "property", pattern := "", matchFullPath := false,
    propertyName := k, propertyValue := "", propertyOperator := "exists" }

/-- A group with the fields the resolver reads. -/
def mkGroup (i : String) (pri : Int) (useProp : Bool) (propName cid : String)
    (conds : List Condition) : Group :=
  { id := i, name := i, colorId := cid, usePropertyAsColor := useProp,
    propertyNameForColor := propName, enabled := true, priority := pri,
    conditions := conds }

/-- A settings blob with the default toggles. -/
def mkSettings (palette : List PaletteColor) (fileColors : List ManualFileColor)
    (groups : List Group) : Settings :=
  { cascadeColors := false, colorBackground := false, folderNotesCompatibility := false,
    palette := palette, fileColors := fileColors, groups := groups }

/-- Metadata for the C1 instance: `n.md` has `t: yes` and `bg: not-a-color`. -/
def envC1 : MetaEnv := fun p =>
  if p == "n.md" then some [("t", PropValue.str "yes"), ("bg", PropValue.str "not-a-color")]
  else none

/-- C1: the higher-priority group extracts its color from property `bg`. -/
def gC1High : Group := mkGroup "g1" 10 true "bg" "" [existsCond "k1" "t"]

/-- C1: the lower-priority group uses palette color `c9`. -/
def gC1Low : Group := mkGroup "g2" 2 false "" "c9" [existsCond "k2" "t"]

def cfgC1 : Settings := mkSettings [] [] [gC1High, gC1Low]

/-- Metadata for the C2 instance: `m.md` has `x: 1` and no `bg`. -/
def envC2 : MetaEnv := fun p =>
  if p == "m.md" then some [("x", PropValue.str "1")] else none

def gC2P : Group := mkGroup "p" 5 true "bg" "" [existsCond "kp" "x"]

def gC2Q : Group := mkGroup "q" 1 false "" "c2" [existsCond "kq" "x"]

def cfgC2 : Settings := mkSettings [] [] [gC2P, gC2Q]

/-- Metadata for the C3 instance. -/
def envC3 : MetaEnv := fun p =>
  if p == "a.md" then some [("x", PropValue.str "1")] else none

def gC3 : Group := mkGroup "g" 1 false "" "c1" [existsCond "k" "x"]

/-- C3: a manual entry for `a.md` whose color id is the empty string. -/
def cfgC3 : Settings := mkSettings [] [⟨"a.md", ""⟩] [gC3]

/-- C5: two groups with priorities 2 and 1. -/
def gC5A : Group := mkGroup "a" 2 false "" "" []

def gC5B : Group := mkGroup "b" 1 false "" "" []

/-- Metadata for the C2 witness instance: `w.md` has `y: 1`. -/
def envW2 : MetaEnv := fun p =>
  if p == "w.md" then some [("y", PropValue.str "1")] else none

/-- C2 witness: two enabled groups with equal priority matching `w.md`. -/
def gW1 : Group := mkGroup "w1" 3 false "" "cw1" [existsCond "kw1" "y"]

def gW2 : Group := mkGroup "w2" 3 false "" "cw2" [existsCond "kw2" "y"]

def cfgW2 : Settings := mkSettings [] [] [gW1, gW2]

/-- C6 witness: a manual color referencing a palette id that no longer exists. -/
def cfgC6 : Settings := mkSettings [] [⟨"a.md", "gone"⟩] []

/-- C8/C9 witness palette: two names equal up to case and trailing space, and
one invalid hex value. -/
def palC8 : List PaletteColor :=
  [⟨"i1", "Red ", "#FF0000"⟩, ⟨"i2", "RED", "#00FF00"⟩, ⟨"i3", "", "nothex"⟩]

/-- C9 witness palette: a single valid color. -/
def palC9 : List PaletteColor := [⟨"c1", "", "#FF0000"⟩]

/-- C9 witness settings: manual colors referencing a surviving and a removed
palette id, plus a group referencing the removed id. -/
def cfgC9 : Settings :=
  mkSettings [⟨"c1", "", "#FF0000"⟩, ⟨"c2", "", "#00FF00"⟩]
    [⟨"a.md", "c1"⟩, ⟨"b.md", "c2"⟩]
    [mkGroup "g" 1 false "" "c2" []]

/-! ## Helper lemmas: the stable descending sort -/

theorem mem_insertDesc (g x : Group) (l : List Group) :
    x ∈ insertDesc g l ↔ x = g ∨ x ∈ l := by
  induction l with
  | nil => simp [insertDesc]
  | cons h t ih =>
    simp only [insertDesc]
    split
    · simp only [List.mem_cons, ih]
      tauto
    · simp only [List.mem_cons]

theorem perm_insertDesc (g : Group) (l : List Group) :
    List.Perm (insertDesc g l) (g :: l) := by
  induction l with
  | nil => simp [insertDesc]
  | cons h t ih =>
    simp only [insertDesc]
    split
    · exact (ih.cons h).trans (List.Perm.swap g h t)
    · exact List.Perm.refl _

theorem perm_sortByPriorityDesc (l : List Group) :
    List.Perm (sortByPriorityDesc l) l := by
  induction l with
  | nil => exact List.Perm.refl _
  | cons g t ih =>
    simp only [sortByPriorityDesc]
    exact (perm_insertDesc g (sortByPriorityDesc t)).trans (ih.cons g)

theorem pairwise_insertDesc (g : Group) (l : List Group)
    (hl : l.Pairwise (fun a b => b.priority ≤ a.priority)) :
    (insertDesc g l).Pairwise (fun a b => b.priority ≤ a.priority) := by
  induction l with
  | nil => simp [insertDesc]
  | cons h t ih =>
    rw [List.pairwise_cons] at hl
    simp only [insertDesc]
    split
    · rename_i hgt
      refine List.pairwise_cons.mpr ⟨?_, ih hl.2⟩
      intro x hx
      rcases (mem_insertDesc g x t).mp hx with rfl | hxt
      · omega
      · exact hl.1 x hxt
    · rename_i hgt
      refine List.pairwise_cons.mpr ⟨?_, List.pairwise_cons.mpr hl⟩
      intro x hx
      rcases List.mem_cons.mp hx with rfl | hxt
      · omega
      · have := hl.1 x hxt
        omega

theorem pairwise_sortByPriorityDesc (l : List Group) :
    (sortByPriorityDesc l).Pairwise (fun a b => b.priority ≤ a.priority) := by
  induction l with
  | nil => simp [sortByPriorityDesc]
  | cons g t ih => exact pairwise_insertDesc g _ ih

theorem insertDesc_eq_cons (g : Group) (m : List Group)
    (h : ∀ x ∈ m, x.priority ≤ g.priority) : insertDesc g m = g :: m := by
  cases m with
  | nil => rfl
  | cons a t =>
    simp only [insertDesc]
    rw [if_neg]
    have := h a (by simp)
    omega

theorem filter_insertDesc (p : Group → Bool) (g : Group) (l : List Group)
    (hl : l.Pairwise (fun a b => b.priority ≤ a.priority)) :
    (insertDesc g l).filter p =
      if p g then insertDesc g (l.filter p) else l.filter p := by
  induction l with
  | nil =>
    cases hpg : p g <;> simp [insertDesc, List.filter, hpg]
  | cons h t ih =>
    rw [List.pairwise_cons] at hl
    simp only [insertDesc]
    split
    · rename_i hgt
      rw [List.filter_cons, List.filter_cons, ih hl.2]
      by_cases hph : p h = true
      · rw [if_pos hph, if_pos hph]
        by_cases hpg : p g = true
        · rw [if_pos hpg, if_pos hpg]
          simp only [insertDesc]
          rw [if_pos hgt]
        · rw [if_neg hpg, if_neg hpg]
      · rw [if_neg hph, if_neg hph]
    · rename_i hgt
      rw [List.filter_cons]
      by_cases hpg : p g = true
      · rw [if_pos hpg, if_pos hpg]
        rw [insertDesc_eq_cons]
        intro x hx
        rcases List.mem_cons.mp (List.mem_filter.mp hx).1 with rfl | hxt
        · omega
        · have := hl.1 x hxt
          omega
      · rw [if_neg hpg, if_neg hpg]

theorem filter_sortByPriorityDesc (p : Group → Bool) (l : List Group) :
    (sortByPriorityDesc l).filter p = sortByPriorityDesc (l.filter p) := by
  induction l with
  | nil => rfl
  | cons g t ih =>
    simp only [sortByPriorityDesc, List.filter_cons]
    rw [filter_insertDesc p g _ (pairwise_sortByPriorityDesc t), ih]
    by_cases hpg : p g = true
    · rw [if_pos hpg, if_pos hpg]
      rfl
    · rw [if_neg hpg, if_neg hpg]

theorem sortByPriorityDesc_of_const (n : Int) (l : List Group)
    (h : ∀ x ∈ l, x.priority = n) : sortByPriorityDesc l = l := by
  induction l with
  | nil => rfl
  | cons g t ih =>
    simp only [sortByPriorityDesc]
    rw [ih (fun x hx => h x (by simp [hx]))]
    refine insertDesc_eq_cons g t (fun x hx => ?_)
    rw [h x (by simp [hx]), h g (by simp)]

theorem stable_sortByPriorityDesc (n : Int) (l : List Group) :
    (sortByPriorityDesc l).filter (fun g => g.priority == n) =
      l.filter (fun g => g.priority == n) := by
  rw [filter_sortByPriorityDesc]
  refine sortByPriorityDesc_of_const n _ (fun x hx => ?_)
  have := List.of_mem_filter hx
  simpa using this

/-! ## Helper lemmas: the resolver's group loop -/

theorem truthyS_none : truthyS none = false := rfl

theorem truthyS_some (v : String) : truthyS (some v) = (v != "") := rfl

theorem resolverHexNormalize_ne_empty (raw c : String)
    (h : resolverHexNormalize raw = some c) : c ≠ "" := by
  simp only [resolverHexNormalize] at h
  split at h
  · rename_i hpat
    injection h with h
    subst h
    split
    · rename_i hst
      intro hc
      rw [hc] at hst
      exact absurd hst (by decide)
    · intro hc
      have := congrArg String.data hc
      rw [String.data_append] at this
      simp at this
  · exact absurd h (by simp)

theorem propertyHexColor_ne_empty (env : MetaEnv) (path : String) (g : Group)
    (c : String) (h : propertyHexColor env path g = some c) : c ≠ "" := by
  unfold propertyHexColor at h
  split at h
  · exact absurd h (by simp)
  · split at h
    · exact absurd h (by simp)
    · split at h
      · exact resolverHexNormalize_ne_empty _ _ h
      · exact absurd h (by simp)

theorem groupStep_cases (engine : RegexEngine) (env : MetaEnv) (path : String)
    (st : Option String × Bool) (g : Group) :
    (groupStep engine env path st g = st
      ∧ groupYield engine env path g = (none, false))
    ∨ (groupStep engine env path st g = (some g.colorId, st.2)
      ∧ groupYield engine env path g = (some g.colorId, false))
    ∨ (∃ c, c ≠ ""
      ∧ groupStep engine env path st g = (some c, true)
      ∧ groupYield engine env path g = (some c, true)) := by
  by_cases hm : groupMatches engine env path g = true
  · by_cases hp : g.usePropertyAsColor = true
    · cases hpc : propertyHexColor env path g with
      | none =>
        left
        constructor <;> simp [groupStep, groupYield, hm, hp, hpc]
      | some c =>
        right; right
        refine ⟨c, propertyHexColor_ne_empty env path g c hpc, ?_, ?_⟩ <;>
          simp [groupStep, groupYield, hm, hp, hpc]
    · right; left
      constructor <;> simp [groupStep, groupYield, hm, hp]
  · left
    constructor <;> simp [groupStep, groupYield, hm]

theorem groupLoop_eq_firstYield (engine : RegexEngine) (env : MetaEnv)
    (path : String) (l : List Group) :
    ∀ st : Option String × Bool, truthyS st.1 = false → st.2 = false →
      yieldToResolved (groupLoop engine env path st l) =
        yieldToResolved (firstYield engine env path l) := by
  induction l with
  | nil =>
    intro st h1 h2
    simp only [groupLoop, firstYield]
    obtain ⟨cv, hx⟩ := st
    cases cv with
    | none => rfl
    | some v =>
      simp only [truthyS] at h1
      simp [yieldToResolved, h1]
  | cons g rest ih =>
    intro st h1 h2
    simp only [groupLoop, firstYield]
    rcases groupStep_cases engine env path st g with ⟨hs, hy⟩ | ⟨hs, hy⟩ | ⟨c, hc, hs, hy⟩
    · rw [hs, hy]
      dsimp only
      rw [h1]
      simp only [Bool.false_eq_true, ↓reduceIte]
      exact ih st h1 h2
    · rw [hs, hy, h2]
      dsimp only
      rw [truthyS_some]
      by_cases hcid : g.colorId = ""
      · rw [hcid]
        simp only [bne_self_eq_false, Bool.false_eq_true, ↓reduceIte]
        exact ih (some "", false) (by simp [truthyS_some]) rfl
      · rw [if_pos (by simpa using hcid), if_pos (by simpa using hcid)]
    · rw [hs, hy]
      dsimp only
      rw [truthyS_some]
      rw [if_pos (by simpa using hc), if_pos (by simpa using hc)]

theorem firstYield_filter_nonempty (engine : RegexEngine) (env : MetaEnv)
    (path : String) (l : List Group) :
    firstYield engine env path (l.filter (fun g => !g.conditions.isEmpty)) =
      firstYield engine env path l := by
  induction l with
  | nil => rfl
  | cons g rest ih =>
    rw [List.filter_cons]
    by_cases hne : (!g.conditions.isEmpty) = true
    · rw [if_pos hne]
      simp only [firstYield, ih]
    · rw [if_neg hne]
      have hmatch : groupMatches engine env path g = false := by
        simp only [groupMatches]
        simp only [Bool.not_eq_true'] at hne
        simp [hne]
      have hyield : groupYield engine env path g = (none, false) := by
        simp [groupYield, groupStep, hmatch]
      simp only [firstYield, hyield, ih]
      simp [truthyS]

theorem resolvedColor_eq_firstYield (engine : RegexEngine) (env : MetaEnv)
    (s : Settings) (path : String)
    (hm : truthyS ((s.fileColors.find? (fun f => f.path == path)).map
      (fun f => f.color)) = false) :
    resolvedColor engine env s path =
      yieldToResolved (firstYield engine env path
        (sortByPriorityDesc (s.groups.filter (fun g => g.enabled)))) := by
  unfold resolvedColor resolveFile
  rw [if_neg (by simp [hm])]
  exact groupLoop_eq_firstYield engine env path _ _ hm rfl

/-! ## Helper lemmas: hex normalization -/

theorem char_toNat_le_of_le {a b : Char} (h : a ≤ b) : a.toNat ≤ b.toNat := by
  rw [Char.le_def] at h
  exact h

theorem upChar_hex (c : Char) (h : isHexDigit c = true) :
    isUpperHexDigit (upChar c) = true := by
  unfold isHexDigit at h
  rcases Bool.or_eq_true_iff.mp h with h' | hAF
  · rcases Bool.or_eq_true_iff.mp h' with h09 | haf
    · obtain ⟨h0, h9⟩ := Bool.and_eq_true_iff.mp h09
      have h0' : '0' ≤ c := of_decide_eq_true h0
      have h9' : c ≤ '9' := of_decide_eq_true h9
      have hne : ¬('a' ≤ c ∧ c ≤ 'z') := by
        rintro ⟨hac, -⟩
        exact absurd (le_trans hac h9') (by decide)
      unfold upChar
      rw [if_neg hne]
      simp [isUpperHexDigit, h0', h9']
    · obtain ⟨ha, hf⟩ := Bool.and_eq_true_iff.mp haf
      have ha' : 'a' ≤ c := of_decide_eq_true ha
      have hf' : c ≤ 'f' := of_decide_eq_true hf
      have hyes : 'a' ≤ c ∧ c ≤ 'z' := ⟨ha', le_trans hf' (by decide)⟩
      unfold upChar
      rw [if_pos hyes]
      have hlo : 97 ≤ c.toNat := char_toNat_le_of_le ha'
      have hhi : c.toNat ≤ 102 := char_toNat_le_of_le hf'
      set n := c.toNat with hn
      interval_cases n <;> decide
  · obtain ⟨hA, hF⟩ := Bool.and_eq_true_iff.mp hAF
    have hA' : 'A' ≤ c := of_decide_eq_true hA
    have hF' : c ≤ 'F' := of_decide_eq_true hF
    have hne : ¬('a' ≤ c ∧ c ≤ 'z') := by
      rintro ⟨hac, -⟩
      exact absurd (le_trans hac hF') (by decide)
    unfold upChar
    rw [if_neg hne]
    simp [isUpperHexDigit, hA', hF']

theorem dupEachChar_length (cs : List Char) :
    (dupEachChar cs).length = 2 * cs.length := by
  induction cs with
  | nil => rfl
  | cons c t ih =>
    simp only [dupEachChar, List.foldr] at ih ⊢
    simp [ih]
    omega

theorem dupEachChar_all (p : Char → Bool) (cs : List Char) (h : cs.all p = true) :
    (dupEachChar cs).all p = true := by
  induction cs with
  | nil => rfl
  | cons c t ih =>
    simp only [List.all_cons, Bool.and_eq_true] at h
    simp only [dupEachChar, List.foldr] at ih ⊢
    simp [h.1, ih h.2]

theorem data_hash_append (x : String) : ("#" ++ x).data = '#' :: x.data := by
  rw [String.data_append]
  rfl

theorem startsWithChars_hash (l : List Char) (h : startsWithChars l ['#'] = true) :
    ∃ t, l = '#' :: t := by
  cases l with
  | nil => exact absurd h (by decide)
  | cons a t =>
    refine ⟨t, ?_⟩
    simp only [startsWithChars, Bool.and_eq_true] at h
    have : a = '#' := by simpa using h.1
    rw [this]

theorem stripHash_of_starts (sIn : String) (h : strStarts sIn "#" = true) :
    sIn = "#" ++ stripHash sIn := by
  obtain ⟨t, ht⟩ := startsWithChars_hash sIn.data h
  unfold stripHash
  rw [if_pos h]
  apply String.ext
  rw [data_hash_append]
  simp [ht]

/-! ## Claims -/

/-- Claim C10: when a vault item at path `p` is deleted, every manual color
entry whose path starts with `p` as a plain string prefix is removed (so
siblings such as `foobar.md` are removed when `foo` is deleted), and every
entry whose path does not start with `p` is kept unchanged. -/
theorem deleteRemovesPathPrefixEntries :
    (∀ (s : Settings) (p : String) (fc : ManualFileColor),
       fc ∈ (onVaultDelete s p).fileColors ↔
         fc ∈ s.fileColors ∧ strStarts fc.path p = false)
    ∧ (onVaultDelete (mkSettings [] [⟨"foobar.md", "c1"⟩, ⟨"bar/x.md", "c2"⟩] []) "foo").fileColors
        = [⟨"bar/x.md", "c2"⟩] := by
  constructor
  · intro s p fc
    simp only [onVaultDelete, List.mem_filter, Bool.not_eq_true']
  · decide

/-- Claim C6: when the resolver's verdict for a path is a reference to a
palette id that is absent from the palette (as a dangling group `colorId` or
manual color produces), the styling pipeline yields no effective color for
that path: the emitted class has no matching rule from
`generateColorStyles`. -/
theorem danglingReferenceNoEffectiveColor (engine : RegexEngine) (env : MetaEnv)
    (s : Settings) (path : String) (cid : String)
    (hres : resolvedColor engine env s path = some (.paletteRef cid))
    (hmiss : ∀ c ∈ s.palette, c.id ≠ cid) :
    effectiveCssColor s (resolvedColor engine env s path) = none := by
  rw [hres]
  simp only [effectiveCssColor]
  rw [List.find?_eq_none.mpr (fun c hc => by simp [hmiss c hc])]
  rfl

/-- Claim C6 witness: a manual color referencing the removed palette id
`gone` resolves to a palette reference but paints nothing. -/
theorem danglingReferenceNoEffectiveColor_witness :
    effectiveCssColor cfgC6 (resolvedColor noEngine (fun _ => none) cfgC6 "a.md") = none :=
  danglingReferenceNoEffectiveColor noEngine (fun _ => none) cfgC6 "a.md" "gone"
    (by decide) (by decide)

/-- Claim C3 counterexample: the manual color list contains an entry for
`a.md`, yet because its color id is the empty string (falsy in JS), the
resolver consults the groups and returns the group color `c1` instead of the
entry's color — the claim's "no group is consulted" fails as stated. -/
theorem manualEmptyColorCounterexample :
    cfgC3.fileColors.find? (fun f => f.path == "a.md") = some ⟨"a.md", ""⟩
    ∧ resolvedColor noEngine envC3 cfgC3 "a.md" = some (.paletteRef "c1")
    ∧ gC3 ∈ cfgC3.groups ∧ gC3.colorId = "c1" := by
  decide

/-- Claim C3 (amended): if the manual color list contains an entry with a
non-empty color id for the path, the resolver returns that entry's palette
color and the outcome is independent of the group list. -/
theorem manualColorOverridesGroups (engine : RegexEngine) (env : MetaEnv)
    (s : Settings) (path : String) (fc : ManualFileColor)
    (hfind : s.fileColors.find? (fun f => f.path == path) = some fc)
    (hne : fc.color ≠ "") :
    resolvedColor engine env s path = some (.paletteRef fc.color)
    ∧ ∀ gs : List Group,
        resolvedColor engine env { s with groups := gs } path =
          some (.paletteRef fc.color) := by
  have key : ∀ gs : List Group,
      resolvedColor engine env { s with groups := gs } path =
        some (.paletteRef fc.color) := by
    intro gs
    unfold resolvedColor resolveFile
    rw [show ({ s with groups := gs } : Settings).fileColors = s.fileColors from rfl, hfind]
    simp only [Option.map_some']
    rw [truthyS_some, if_pos (by simpa using hne)]
    simp [yieldToResolved, hne]
  exact ⟨key s.groups, key⟩

/-- Claim C3 witness: a manual entry `b.md`, `c7` wins over a matching
enabled group. -/
theorem manualColorOverridesGroups_witness :
    resolvedColor noEngine envC3 (mkSettings [] [⟨"b.md", "c7"⟩] [gC3]) "b.md" =
      some (.paletteRef "c7") :=
  (manualColorOverridesGroups noEngine envC3 (mkSettings [] [⟨"b.md", "c7"⟩] [gC3])
    "b.md" ⟨"b.md", "c7"⟩ (by decide) (by decide)).1

/-- Claim C1 counterexample: `n.md` matches the enabled higher-priority group
`gC1High`, whose `usePropertyAsColor` extraction fails (`bg` holds
`not-a-color`), yet the resolver does fall through and paints the
lower-priority group's palette color `c9` instead of producing no color. -/
theorem fallThroughCounterexample :
    resolvedColor noEngine envC1 cfgC1 "n.md" = some (.paletteRef "c9")
    ∧ groupMatches noEngine envC1 "n.md" gC1High = true
    ∧ gC1High.usePropertyAsColor = true
    ∧ propertyHexColor envC1 "n.md" gC1High = none
    ∧ gC1High.priority > gC1Low.priority
    ∧ cfgC1.groups = [gC1High, gC1Low]
    ∧ cfgC1.fileColors = [] := by
  decide

/-- Claim C1 (amended): when a matching group's `usePropertyAsColor`
extraction yields nothing (property absent, falsy, or not a 6-digit hex), the
group contributes no color and the resolver falls through to the remaining
lower-priority groups of the same pass. -/
theorem groupLoopFallsThrough (engine : RegexEngine) (env : MetaEnv)
    (path : String) (st : Option String × Bool) (g : Group) (rest : List Group)
    (h1 : truthyS st.1 = false)
    (hprop : g.usePropertyAsColor = true)
    (hfail : propertyHexColor env path g = none) :
    groupYield engine env path g = (none, false)
    ∧ groupLoop engine env path st (g :: rest) = groupLoop engine env path st rest := by
  have hstep : ∀ st0 : Option String × Bool, groupStep engine env path st0 g = st0 := by
    intro st0
    by_cases hm : groupMatches engine env path g = true <;>
      simp [groupStep, hm, hprop, hfail]
  constructor
  · simpa [groupYield] using hstep (none, false)
  · simp only [groupLoop, hstep st]
    rw [h1]
    simp

/-- Claim C1 witness: the amended fall-through behaviour at the concrete C1
instance. -/
theorem groupLoopFallsThrough_witness :
    groupYield noEngine envC1 "n.md" gC1High = (none, false)
    ∧ groupLoop noEngine envC1 "n.md" (none, false) [gC1High, gC1Low] =
        groupLoop noEngine envC1 "n.md" (none, false) [gC1Low] :=
  groupLoopFallsThrough noEngine envC1 "n.md" (none, false) gC1High [gC1Low]
    (by decide) (by decide) (by decide)

/-- Claim C2 counterexample: both enabled groups match `m.md` and `gC2P` has
the strictly highest priority, yet the resolver's verdict is the
lower-priority group's color `c2` because `gC2P` yields no color — the
highest-priority matching group does not always win. -/
theorem highestPriorityNotWinningCounterexample :
    resolvedColor noEngine envC2 cfgC2 "m.md" = some (.paletteRef "c2")
    ∧ groupMatches noEngine envC2 "m.md" gC2P = true
    ∧ groupMatches noEngine envC2 "m.md" gC2Q = true
    ∧ gC2P.priority > gC2Q.priority
    ∧ (groupYield noEngine envC2 "m.md" gC2P).1 = none
    ∧ gC2Q.colorId = "c2"
    ∧ cfgC2.groups = [gC2P, gC2Q]
    ∧ cfgC2.fileColors = [] := by
  decide

/-- Claim C2 (amended): with no truthy manual color, the resolver iterates
exactly the `enabled = true` groups in priority-descending order: the
iteration list is sorted by non-increasing priority, is a permutation of the
enabled groups, preserves the original relative order of equal-priority
groups (stability), and the verdict is the first group along it that yields a
usable color (matching alone does not decide the winner: a matching group
whose color extraction fails is passed over). -/
theorem resolverPriorityOrder (engine : RegexEngine) (env : MetaEnv)
    (s : Settings) (path : String)
    (hm : truthyS ((s.fileColors.find? (fun f => f.path == path)).map
      (fun f => f.color)) = false) :
    (sortByPriorityDesc (s.groups.filter (fun g => g.enabled))).Pairwise
        (fun a b => b.priority ≤ a.priority)
    ∧ List.Perm (sortByPriorityDesc (s.groups.filter (fun g => g.enabled)))
        (s.groups.filter (fun g => g.enabled))
    ∧ (∀ p : Int,
        (sortByPriorityDesc (s.groups.filter (fun g => g.enabled))).filter
            (fun g => g.priority == p) =
          (s.groups.filter (fun g => g.enabled)).filter (fun g => g.priority == p))
    ∧ resolvedColor engine env s path =
        yieldToResolved (firstYield engine env path
          (sortByPriorityDesc (s.groups.filter (fun g => g.enabled)))) :=
  ⟨pairwise_sortByPriorityDesc _, perm_sortByPriorityDesc _,
   fun p => stable_sortByPriorityDesc p _,
   resolvedColor_eq_firstYield engine env s path hm⟩

/-- Claim C2 witness: the order facts and the first-usable-color verdict at a
concrete instance with two equal-priority enabled groups. -/
theorem resolverPriorityOrder_witness :
    (sortByPriorityDesc (cfgW2.groups.filter (fun g => g.enabled))).Pairwise
        (fun a b => b.priority ≤ a.priority)
    ∧ (sortByPriorityDesc (cfgW2.groups.filter (fun g => g.enabled))).filter
          (fun g => g.priority == 3) =
        (cfgW2.groups.filter (fun g => g.enabled)).filter (fun g => g.priority == 3)
    ∧ resolvedColor noEngine envW2 cfgW2 "w.md" =
        yieldToResolved (firstYield noEngine envW2 "w.md"
          (sortByPriorityDesc (cfgW2.groups.filter (fun g => g.enabled)))) := by
  have h := resolverPriorityOrder noEngine envW2 cfgW2 "w.md" (by decide)
  exact ⟨h.1, h.2.2.1 3, h.2.2.2⟩

/-- Claim C7: a group whose condition list is empty never matches any path,
and dropping all such groups from the settings leaves every per-file
resolution verdict unchanged — such groups never contribute a color. -/
theorem emptyConditionsGroupsInert :
    (∀ (engine : RegexEngine) (env : MetaEnv) (path : String) (g : Group),
       g.conditions = [] → groupMatches engine env path g = false)
    ∧ ∀ (engine : RegexEngine) (env : MetaEnv) (s : Settings) (path : String),
        resolvedColor engine env s path =
          resolvedColor engine env
            { s with groups := s.groups.filter (fun g => !g.conditions.isEmpty) } path := by
  constructor
  · intro engine env path g hg
    simp [groupMatches, hg]
  · intro engine env s path
    unfold resolvedColor resolveFile
    rw [show ({ s with groups := s.groups.filter (fun g => !g.conditions.isEmpty) } :
          Settings).fileColors = s.fileColors from rfl]
    by_cases hm : truthyS (Option.map (fun f => f.color)
        (s.fileColors.find? (fun f => f.path == path))) = true
    · rw [if_pos hm, if_pos hm]
    · rw [Bool.not_eq_true] at hm
      rw [if_neg (by simp [hm]), if_neg (by simp [hm])]
      rw [groupLoop_eq_firstYield engine env path _ _ hm rfl,
          groupLoop_eq_firstYield engine env path _ _ hm rfl]
      rw [show ({ s with groups := s.groups.filter (fun g => !g.conditions.isEmpty) } :
            Settings).groups = s.groups.filter (fun g => !g.conditions.isEmpty) from rfl]
      have step1 : (s.groups.filter (fun g => !g.conditions.isEmpty)).filter
            (fun g => g.enabled) =
          (s.groups.filter (fun g => g.enabled)).filter (fun g => !g.conditions.isEmpty) := by
        rw [List.filter_filter, List.filter_filter]
        congr 1
        funext a
        exact Bool.and_comm _ _
      rw [step1]
      conv_rhs => rw [← filter_sortByPriorityDesc, firstYield_filter_nonempty]

/-- Claim C7 witness: the empty-condition group facts at a concrete
instance — `mkGroup "e" 9 false "" "ce" []` has no conditions, never matches,
and its presence does not change the verdict for `a.md`. -/
theorem emptyConditionsGroupsInert_witness :
    groupMatches noEngine envC3 "a.md" (mkGroup "e" 9 false "" "ce" []) = false
    ∧ resolvedColor noEngine envC3 (mkSettings [] [] [mkGroup "e" 9 false "" "ce" [], gC3]) "a.md" =
        resolvedColor noEngine envC3
          { mkSettings [] [] [mkGroup "e" 9 false "" "ce" [], gC3] with
            groups := (mkSettings [] [] [mkGroup "e" 9 false "" "ce" [], gC3]).groups.filter
              (fun g => !g.conditions.isEmpty) } "a.md" :=
  ⟨emptyConditionsGroupsInert.1 noEngine envC3 "a.md" (mkGroup "e" 9 false "" "ce" []) rfl,
   emptyConditionsGroupsInert.2 noEngine envC3 (mkSettings [] [] [mkGroup "e" 9 false "" "ce" [], gC3]) "a.md"⟩

/-- Claim C5 counterexample: moving the lower group `b` (priority 1) up past
`a` (priority 2) produces priorities `a: 1, b: 3`, not the swap `a: 1, b: 2`—
the moved group receives its neighbour's priority plus one, so the operation
is not a swap of the two priority values. -/
theorem moveUpNotSwapCounterexample :
    (onGroupMoveUp [gC5A, gC5B] "b").map (fun g => (g.id, g.priority)) =
      [("a", 1), ("b", 3)]
    ∧ ¬ ((onGroupMoveUp [gC5A, gC5B] "b").map (fun g => (g.id, g.priority)) =
      [("a", 1), ("b", 2)])
    ∧ gC5A.priority = 2 ∧ gC5B.priority = 1 := by
  decide

/-- Claim C5 (amended): in the priority-descending view, moving a group up
gives it its upper neighbour's priority plus one while the neighbour receives
the moved group's old priority; moving down gives it the lower neighbour's
priority minus one, symmetric; a group already first (for up) or last (for
down) changes nothing. -/
theorem moveRenumbersWithNeighborOffset (groups : List Group) (groupId : String) :
    ((sortByPriorityDesc groups).findIdx? (fun g => g.id == groupId) = some 0 →
      onGroupMoveUp groups groupId = groups)
    ∧ (∀ i cur neighbor,
        (sortByPriorityDesc groups).findIdx? (fun g => g.id == groupId) = some (i + 1) →
        (sortByPriorityDesc groups)[i + 1]? = some cur →
        (sortByPriorityDesc groups)[i]? = some neighbor →
        onGroupMoveUp groups groupId = groups.map (fun g =>
          if g.id == groupId then { g with priority := neighbor.priority + 1 }
          else if g.id == neighbor.id then { g with priority := cur.priority }
          else g))
    ∧ (∀ i,
        (sortByPriorityDesc groups).findIdx? (fun g => g.id == groupId) = some i →
        i = (sortByPriorityDesc groups).length - 1 →
        onGroupMoveDown groups groupId = groups)
    ∧ (∀ i cur neighbor,
        (sortByPriorityDesc groups).findIdx? (fun g => g.id == groupId) = some i →
        i < (sortByPriorityDesc groups).length - 1 →
        (sortByPriorityDesc groups)[i]? = some cur →
        (sortByPriorityDesc groups)[i + 1]? = some neighbor →
        onGroupMoveDown groups groupId = groups.map (fun g =>
          if g.id == groupId then { g with priority := neighbor.priority - 1 }
          else if g.id == neighbor.id then { g with priority := cur.priority }
          else g)) := by
  refine ⟨?_, ?_, ?_, ?_⟩
  · intro h
    simp [onGroupMoveUp, h]
  · intro i cur neighbor h hcur hnb
    simp [onGroupMoveUp, h, Nat.add_sub_cancel, hcur, hnb]
  · intro i h hlast
    subst hlast
    simp [onGroupMoveDown, h]
  · intro i cur neighbor h hlt hcur hnb
    simp [onGroupMoveDown, h, hcur, hnb, hlt]

/-- Claim C5 witness: the amended renumbering and the boundary no-ops at the
two-group instance. -/
theorem moveRenumbersWithNeighborOffset_witness :
    onGroupMoveUp [gC5A, gC5B] "b" = [gC5A, gC5B].map (fun g =>
      if g.id == "b" then { g with priority := gC5A.priority + 1 }
      else if g.id == gC5A.id then { g with priority := gC5B.priority }
      else g)
    ∧ onGroupMoveUp [gC5A, gC5B] "a" = [gC5A, gC5B]
    ∧ onGroupMoveDown [gC5A, gC5B] "b" = [gC5A, gC5B] := by
  refine ⟨?_, ?_, ?_⟩
  · exact (moveRenumbersWithNeighborOffset [gC5A, gC5B] "b").2.1 0 gC5B gC5A
      (by decide) (by decide) (by decide)
  · exact (moveRenumbersWithNeighborOffset [gC5A, gC5B] "a").1 (by decide)
  · exact (moveRenumbersWithNeighborOffset [gC5A, gC5B] "b").2.2.1 1 (by decide) (by decide)

theorem mem_nameKeys (l : List PaletteColor) :
    ∀ (seen : List String) (n : String),
      n ∈ nameKeys seen l ↔ (∃ c ∈ l, normName c = n) ∧ n ≠ "" ∧ n ∉ seen := by
  induction l with
  | nil =>
    intro seen n
    simp [nameKeys]
  | cons c0 rest ih =>
    intro seen n
    simp only [nameKeys]
    split
    · rename_i hskip
      rw [ih seen n]
      constructor
      · rintro ⟨⟨c, hc, hcn⟩, hne, hns⟩
        exact ⟨⟨c, by simp [hc], hcn⟩, hne, hns⟩
      · rintro ⟨⟨c, hc, hcn⟩, hne, hns⟩
        rcases List.mem_cons.mp hc with rfl | hcr
        · rcases hskip with h0 | hseen
          · have h00 : normName c = "" := by simpa using h0
            exact absurd (hcn.symm.trans h00) hne
          · exact absurd (hcn ▸ hseen) hns
        · exact ⟨⟨c, hcr, hcn⟩, hne, hns⟩
    · rename_i hskip
      push_neg at hskip
      have h0 : normName c0 ≠ "" := by simpa using hskip.1
      have hs0 : normName c0 ∉ seen := hskip.2
      simp only [List.mem_cons, ih]
      constructor
      · rintro (rfl | ⟨⟨c, hc, hcn⟩, hne, hns⟩)
        · exact ⟨⟨c0, by simp, rfl⟩, h0, hs0⟩
        · refine ⟨⟨c, by simp [hc], hcn⟩, hne, fun hn => hns (by simp [hn])⟩
      · rintro ⟨⟨c, hc, hcn⟩, hne, hns⟩
        by_cases hn0 : n = normName c0
        · exact Or.inl hn0
        · right
          rcases hc with rfl | hcr
          · exact absurd hcn.symm hn0
          · refine ⟨⟨c, hcr, hcn⟩, hne, fun hn => ?_⟩
            rcases hn with h | h
            · exact hn0 h
            · exact hns h

/-- Claim C8: palette save validation collects every conflict instead of
stopping at the first: each color whose value is not a valid `#RRGGBB` hex
contributes its own `invalid-hex` error, each non-empty trimmed,
case-folded name shared by two or more colors contributes one
`duplicate-name` error listing the ids of all colors involved, and the save
is rejected (settings untouched) whenever at least one error exists. -/
theorem savePaletteCollectsAllErrors (s : Settings) (palette : List PaletteColor) :
    (∀ c ∈ palette, saveHexTest (strTrim c.value) = false →
      (⟨[c.id], "Invalid hex color: " ++ strTrim c.value, "invalid-hex"⟩ : PaletteError)
        ∈ onSaveErrors palette)
    ∧ (∀ n : String, n ≠ "" →
        2 ≤ (palette.filter (fun c => normName c == n)).length →
        (⟨(palette.filter (fun c => normName c == n)).map (fun c => c.id),
          "Duplicate color name " ++
            (((palette.filter (fun c => normName c == n)).head?.map
              (fun c => strTrim c.name)).getD ""),
          "duplicate-name"⟩ : PaletteError) ∈ onSaveErrors palette)
    ∧ (onSaveErrors palette ≠ [] → (onSavePalette s palette).2 = s) := by
  refine ⟨?_, ?_, ?_⟩
  · intro c hc hbad
    apply List.mem_append_left
    apply List.mem_filterMap.mpr
    exact ⟨c, hc, by rw [if_neg (by simp [hbad])]⟩
  · intro n hne h2
    apply List.mem_append_right
    apply List.mem_filterMap.mpr
    refine ⟨n, ?_, ?_⟩
    · apply (mem_nameKeys palette [] n).mpr
      refine ⟨?_, hne, by simp⟩
      have hpos : 0 < (palette.filter (fun c => normName c == n)).length := by omega
      obtain ⟨c, hc⟩ := List.exists_mem_of_length_pos hpos
      exact ⟨c, (List.mem_filter.mp hc).1, by simpa using (List.mem_filter.mp hc).2⟩
    · rw [if_pos (by omega)]
  · intro hne
    unfold onSavePalette
    rw [if_pos (by simpa [List.length_pos] using hne)]

/-- Claim C8 witness: the palette with names `Red ` and `RED` and the invalid
value `nothex` produces both errors and the save is rejected. -/
theorem savePaletteCollectsAllErrors_witness :
    (⟨["i3"], "Invalid hex color: nothex", "invalid-hex"⟩ : PaletteError)
      ∈ onSaveErrors palC8
    ∧ (⟨["i1", "i2"], "Duplicate color name Red", "duplicate-name"⟩ : PaletteError)
      ∈ onSaveErrors palC8
    ∧ (onSavePalette (mkSettings [] [] []) palC8).2 = mkSettings [] [] [] := by
  have h := savePaletteCollectsAllErrors (mkSettings [] [] []) palC8
  refine ⟨?_, ?_, h.2.2 (by decide)⟩
  · exact h.1 ⟨"i3", "", "nothex"⟩ (by decide) (by decide)
  · have := h.2.1 "red" (by decide) (by decide)
    simpa using this

/-- Claim C9: a successful palette save deletes exactly the manual file
colors whose referenced palette id no longer exists in the saved palette,
stores the new palette, and leaves every group (hence its `colorId`)
untouched, even when a group now dangles. -/
theorem savePaletteCascade (s : Settings) (palette : List PaletteColor)
    (hok : onSaveErrors palette = []) :
    (∀ fc : ManualFileColor, fc ∈ (onSavePalette s palette).2.fileColors ↔
        fc ∈ s.fileColors ∧ ∃ c ∈ palette, fc.color = c.id)
    ∧ (onSavePalette s palette).2.groups = s.groups
    ∧ (onSavePalette s palette).2.palette = palette := by
  have hres : (onSavePalette s palette).2 = { s with
      palette := palette,
      fileColors := s.fileColors.filter
        (fun fc => (palette.find? (fun color => fc.color == color.id)).isSome) } := by
    unfold onSavePalette
    rw [hok]
    rfl
  rw [hres]
  refine ⟨?_, rfl, rfl⟩
  intro fc
  simp only [List.mem_filter]
  constructor
  · rintro ⟨hmem, hfind⟩
    obtain ⟨c, hcmem, hcp⟩ := List.find?_isSome.mp hfind
    exact ⟨hmem, c, hcmem, by simpa using hcp⟩
  · rintro ⟨hmem, c, hcmem, hcid⟩
    exact ⟨hmem, List.find?_isSome.mpr ⟨c, hcmem, by simpa using hcid⟩⟩

/-- Claim C9 witness: after removing `c2` from the palette and saving, the
manual color for `b.md` (which referenced `c2`) is gone, the one for `a.md`
survives, and the group still referencing `c2` is untouched. -/
theorem savePaletteCascade_witness :
    (onSavePalette cfgC9 palC9).2.groups = cfgC9.groups
    ∧ (onSavePalette cfgC9 palC9).2.palette = palC9
    ∧ ((⟨"a.md", "c1"⟩ : ManualFileColor) ∈ (onSavePalette cfgC9 palC9).2.fileColors
        ↔ (⟨"a.md", "c1"⟩ : ManualFileColor) ∈ cfgC9.fileColors
          ∧ ∃ c ∈ palC9, "c1" = c.id) := by
  have h := savePaletteCascade cfgC9 palC9 (by decide)
  exact ⟨h.2.1, h.2.2, h.1 ⟨"a.md", "c1"⟩⟩

theorem isUpperHexColor6_hash (x : String) :
    isUpperHexColor6 ("#" ++ x) = (x.data.length == 6 && x.data.all isUpperHexDigit) := by
  unfold isUpperHexColor6
  rw [data_hash_append]
  rfl

/-- Claim C4 counterexample: the 3-digit hex `abc` is normalized by the
palette editor but rejected by the resolver's property-as-color extraction,
and the resolver keeps the original letter case instead of producing the
uppercase `#RRGGBB` form — the two normalizations are not the single function
the claim describes. -/
theorem hexNormalizationCounterexample :
    validateAndNormalizeHex "abc" = some "#AABBCC"
    ∧ resolverHexNormalize "abc" = none
    ∧ resolverHexNormalize "aabbcc" = some "#aabbcc"
    ∧ "#aabbcc" ≠ "#AABBCC" := by
  decide

/-- Claim C4 (amended): after trimming and dropping one optional leading
`#`, palette-editor normalization (`validateAndNormalizeHex`) accepts exactly
the 3- or 6-hex-digit strings and always produces `#` plus six uppercase hex
digits, while the resolver's property-as-color normalization accepts exactly
the 6-hex-digit strings and produces `#` plus the digits exactly as written
(no uppercasing). -/
theorem hexNormalizationContract (sIn : String) :
    ((validateAndNormalizeHex sIn).isSome =
      (((stripHash (strTrim sIn)).data.length == 3
          || (stripHash (strTrim sIn)).data.length == 6)
        && (stripHash (strTrim sIn)).data.all isHexDigit))
    ∧ (∀ r, validateAndNormalizeHex sIn = some r → isUpperHexColor6 r = true)
    ∧ ((resolverHexNormalize sIn).isSome =
      ((stripHash (strTrim sIn)).data.length == 6
        && (stripHash (strTrim sIn)).data.all isHexDigit))
    ∧ (∀ r, resolverHexNormalize sIn = some r → r = "#" ++ stripHash (strTrim sIn)) := by
  refine ⟨?_, ?_, ?_, ?_⟩
  · simp only [validateAndNormalizeHex]
    cases h6 : ((stripHash (strTrim sIn)).data.length == 6) <;>
      cases h3 : ((stripHash (strTrim sIn)).data.length == 3) <;>
        cases hall : ((stripHash (strTrim sIn)).data.all isHexDigit) <;>
          simp [h6, h3, hall]
  · intro r h
    simp only [validateAndNormalizeHex] at h
    split at h
    · rename_i hcond
      obtain ⟨hlen, hall⟩ := Bool.and_eq_true_iff.mp hcond
      injection h with h
      subst h
      rw [isUpperHexColor6_hash]
      refine Bool.and_eq_true_iff.mpr ⟨?_, ?_⟩
      · simpa [strUpper] using hlen
      · simp only [strUpper]
        rw [List.all_map]
        refine List.all_eq_true.mpr ?_
        intro x hx
        exact upChar_hex x (List.all_eq_true.mp hall x hx)
    · split at h
      · rename_i hcond
        obtain ⟨hlen, hall⟩ := Bool.and_eq_true_iff.mp hcond
        injection h with h
        subst h
        rw [isUpperHexColor6_hash]
        refine Bool.and_eq_true_iff.mpr ⟨?_, ?_⟩
        · have hl : (stripHash (strTrim sIn)).data.length = 3 := by simpa using hlen
          simp [strUpper, List.length_map, dupEachChar_length, hl]
        · simp only [strUpper]
          rw [List.all_map]
          refine List.all_eq_true.mpr ?_
          intro x hx
          exact upChar_hex x
            (List.all_eq_true.mp (dupEachChar_all isHexDigit _ hall) x hx)
      · exact absurd h (by simp)
  · simp only [resolverHexNormalize]
    split <;> rename_i hc
    · simp only [Option.isSome_some]
      rw [hexPatternTest] at hc
      exact hc.symm
    · simp only [Option.isSome_none]
      rw [Bool.not_eq_true, hexPatternTest] at hc
      exact hc.symm
  · intro r h
    simp only [resolverHexNormalize] at h
    split at h
    · injection h with h
      subst h
      split
      · rename_i hst
        exact stripHash_of_starts _ hst
      · rename_i hst
        rw [stripHash, if_neg hst]
    · exact absurd h (by simp)

/-- Claim C4 witness: the amended contract at the input ` 1a2b3c `: the
palette editor yields the uppercase `#1A2B3C`, the resolver yields `#1a2b3c`
preserving case. -/
theorem hexNormalizationContract_witness :
    isUpperHexColor6 "#1A2B3C" = true
    ∧ "#1a2b3c" = "#" ++ stripHash (strTrim " 1a2b3c ") := by
  have h := hexNormalizationContract " 1a2b3c "
  exact ⟨h.2.1 "#1A2B3C" (by decide), h.2.2.2 "#1a2b3c" (by decide)⟩

end FileColor
